import Mathlib

/-!
Verification development for the aws-sns-sqs-dd-tracing-example repository.

This file shallowly embeds the parts of the code the claims concern:
  * the SNS/SQS message-attribute value type and its builder
    (aws_sdk `types::MessageAttributeValue`), the attribute map, and the
    carrier operations `MessageAttributesInjector::set` (sns.rs 42-51) and
    `MessageAttributesExtractor::get`/`keys` (sqs.rs 38-44);
  * a JSON value model, the serde deserialization of the `Message` payload
    struct, and the envelope unwrapping performed by
    `SqsConsumer::receive_messages` in main.rs (lines 80-96);
  * one iteration of the tracing consumer loop in consumer.rs (lines 51-126)
    and the demo consumer `SqsConsumer::receive_messages` in main.rs
    (lines 60-115), including their error propagation.
-/

namespace SnsSqsTracing

/-- The attribute value type of the AWS SDK (`aws_sdk_sns::types::MessageAttributeValue`
and `aws_sdk_sqs::types::MessageAttributeValue` share this shape): a required
`data_type` string plus optional `string_value` / `binary_value` payload fields.
The fields are independent: e.g. a `Number`-typed attribute carries its value in
`string_value`, a `Binary`-typed one in `binary_value`. -/
structure MessageAttributeValue where
  dataType : String
  stringValue : Option String
  binaryValue : Option (List Nat)
deriving DecidableEq, Repr

/-- The SDK builder for `MessageAttributeValue`: all fields start unset. -/
structure MessageAttributeValueBuilder where
  dataType : Option String
  stringValue : Option String
  binaryValue : Option (List Nat)
deriving DecidableEq, Repr

/-- `MessageAttributeValue::builder()`. -/
def mavBuilder : MessageAttributeValueBuilder := ⟨none, none, none⟩

/-- Builder setter `.data_type(dt)`. -/
def MessageAttributeValueBuilder.withDataType
    (b : MessageAttributeValueBuilder) (dt : String) : MessageAttributeValueBuilder :=
  { b with dataType := some dt }

/-- Builder setter `.string_value(v)`. -/
def MessageAttributeValueBuilder.withStringValue
    (b : MessageAttributeValueBuilder) (v : String) : MessageAttributeValueBuilder :=
  { b with stringValue := some v }

/-- Builder `.build()`: in the AWS SDK this returns `Err(BuildError)` exactly when
the required `data_type` field was never set, and otherwise assembles the value. -/
def MessageAttributeValueBuilder.build
    (b : MessageAttributeValueBuilder) : Except String MessageAttributeValue :=
  match b.dataType with
  | some dt => Except.ok ⟨dt, b.stringValue, b.binaryValue⟩
  | none => Except.error "data_type missing"

/-- The attribute set: `HashMap<String, MessageAttributeValue>`, modelled as an
association list whose well-formedness invariant (`wfAttrMap`) is key uniqueness. -/
abbrev AttrMap := List (String × MessageAttributeValue)

/-- `HashMap::get`: the value stored under the first occurrence of the key. -/
def attrLookup : AttrMap → String → Option MessageAttributeValue
  | [], _ => none
  | (k', v) :: rest, k => if k' = k then some v else attrLookup rest k

/-- `HashMap::insert`: replace the entry under the key if present, else append. -/
def attrInsert : AttrMap → String → MessageAttributeValue → AttrMap
  | [], k, v => [(k, v)]
  | (k', v') :: rest, k, v =>
    if k' = k then (k, v) :: rest else (k', v') :: attrInsert rest k v

/-- The HashMap key-uniqueness invariant on the association-list model. -/
def wfAttrMap : AttrMap → Prop
  | [] => True
  | (k, _) :: rest => attrLookup rest k = none ∧ wfAttrMap rest

instance : DecidablePred wfAttrMap := by
  intro m
  induction m with
  | nil => exact isTrue trivial
  | cons hd tl ih => exact @instDecidableAnd _ _ _ ih

/-- The string-typed attribute value built by the injector for a value `v`. -/
def stringAttr (v : String) : MessageAttributeValue :=
  ⟨"String", some v, none⟩

/-- Embeds `MessageAttributesInjector::set` (sns.rs lines 42-51): build a
string-typed attribute via the SDK builder and insert it under the key.
The `none` result models the `expect` panic on a builder failure. -/
def injectorSet (m : AttrMap) (key value : String) : Option AttrMap :=
  match ((mavBuilder.withDataType "String").withStringValue value).build with
  | Except.ok a => some (attrInsert m key a)
  | Except.error _ => none

/-- Embeds `MessageAttributesExtractor::get` (sqs.rs lines 38-40):
`self.0.get(key).and_then(|v| v.string_value())`. -/
def extractorGet (m : AttrMap) (key : String) : Option String :=
  (attrLookup m key).bind (fun a => a.stringValue)

/-- Embeds `MessageAttributesExtractor::keys` (sqs.rs lines 42-44). -/
def extractorKeys (m : AttrMap) : List String :=
  m.map Prod.fst

/-- A JSON document model standing for `serde_json::Value`. -/
inductive Json where
  | null
  | bool (b : Bool)
  | num (n : Int)
  | str (s : String)
  | arr (elems : List Json)
  | obj (fields : List (String × Json))
deriving Repr

/-- Field lookup inside a JSON object's field list (first occurrence). -/
def jsonObjGet : List (String × Json) → String → Option Json
  | [], _ => none
  | (k', v) :: rest, k => if k' = k then some v else jsonObjGet rest k

/-- `serde_json::Value::get(field)`: field lookup, `None` on non-objects. -/
def jsonGet : Json → String → Option Json
  | Json.obj fields, k => jsonObjGet fields k
  | _, _ => none

/-- `serde_json::Value::as_str()`. -/
def asStr : Json → Option String
  | Json.str s => some s
  | _ => none

/-- serde deserialization of a `u32` from a JSON value: an integer number
within `[0, 2^32)`; the bound is the Rust `u32` range. -/
def asU32 : Json → Option Nat
  | Json.num n => if 0 ≤ n ∧ n < 2 ^ 32 then some n.toNat else none
  | _ => none

/-- The application payload struct `Message { id: u32, content, timestamp }`
shared by main.rs, consumer.rs and publisher.rs. `id` carries a `u32` value
(a natural below `2^32`, enforced at deserialization by `asU32`). -/
structure Message where
  id : Nat
  content : String
  timestamp : String
deriving DecidableEq, Repr

/-- serde's derived `Deserialize` for `Message`: the value must be a JSON
object whose `id` field is a `u32` number and whose `content` and `timestamp`
fields are strings; unknown extra fields are ignored (serde default). -/
def messageOfJson : Json → Option Message
  | Json.obj fields => do
    let idJ ← jsonObjGet fields "id"
    let idN ← asU32 idJ
    let c ← (jsonObjGet fields "content").bind asStr
    let t ← (jsonObjGet fields "timestamp").bind asStr
    some ⟨idN, c, t⟩
  | _ => none

/-- Outcome of the body handling in `SqsConsumer::receive_messages`
(main.rs lines 80-96), one constructor per control path:
`payload` for a decoded inner payload, `rawInner` for an envelope whose
`Message` field does not parse as a payload, `silent` for a body that is
valid JSON but has no string `Message` field (the code prints nothing and
does no further decoding there), `nonEnvelope` for a body that is not valid
JSON ("Received non-SNS message"). -/
inductive UnwrapResult where
  | payload (m : Message)
  | rawInner (s : String)
  | silent
  | nonEnvelope (body : String)
deriving DecidableEq, Repr

/-- Embeds the envelope unwrapping of main.rs lines 80-96. The JSON parser
`p` (standing for `serde_json::from_str`, an external collaborator) is a
parameter; `serde_json::from_str::<Message>(s)` is `(p s).bind messageOfJson`. -/
def unwrapBody (p : String → Option Json) (body : String) : UnwrapResult :=
  match p body with
  | some env =>
    match (jsonGet env "Message").bind asStr with
    | some messageStr =>
      match (p messageStr).bind messageOfJson with
      | some m => UnwrapResult.payload m
      | none => UnwrapResult.rawInner messageStr
    | none => UnwrapResult.silent
  | none => UnwrapResult.nonEnvelope body

/-- A received SQS message as the consumers see it (`aws_sdk_sqs::types::Message`):
optional body, optional attribute map, optional receipt handle. -/
structure SqsMessage where
  body : Option String
  messageAttributes : Option AttrMap
  receiptHandle : Option String
deriving DecidableEq, Repr

/-- Observable actions of one consumer-loop iteration, in program order:
context extraction over an attribute set, consumer-span creation, the payload
or raw-body print, the delete call and its logged outcome, the idle-poll
liveness dot, the receive-error log, and main.rs's own prints. -/
inductive Event where
  | extractContext (attrs : AttrMap)
  | startSpan
  | payloadLog (m : Message)
  | rawLog (s : String)
  | deleteCall (receiptHandle : String)
  | deletedLog
  | deleteFailedLog (e : String)
  | idleDot
  | receiveErrorLog (e : String)
  | rawInnerLog (s : String)
  | nonSnsLog (s : String)
  | noMessagesLog
deriving DecidableEq, Repr

/-- Embeds the per-message block of consumer.rs lines 64-113: extract the
trace context from the message attributes (an absent attribute map is replaced
by an empty one), start a consumer span, parse the body directly as a payload
(`serde_json::from_str::<Message>(body)`) printing the decoded record or the
raw body, then issue the delete call when a receipt handle is present, logging
its success or failure. `d` gives each delete call's outcome. -/
def processMessage (p : String → Option Json) (d : String → Except String Unit)
    (msg : SqsMessage) : List Event :=
  Event.extractContext (msg.messageAttributes.getD []) :: Event.startSpan ::
    ((match msg.body with
      | some body =>
        match (p body).bind messageOfJson with
        | some m => [Event.payloadLog m]
        | none => [Event.rawLog body]
      | none => []) ++
     (match msg.receiptHandle with
      | some rh =>
        Event.deleteCall rh ::
          (match d rh with
           | Except.ok _ => [Event.deletedLog]
           | Except.error e => [Event.deleteFailedLog e])
      | none => []))

/-- The per-batch `for msg in messages` loop of consumer.rs. -/
def processBatch (p : String → Option Json) (d : String → Except String Unit) :
    List SqsMessage → List Event
  | [] => []
  | msg :: rest => processMessage p d msg ++ processBatch p d rest

/-- Result of one `receive_message` call: `ok` carries the SDK response's
optional message list, `error` a transport failure. -/
inductive ReceiveOutcome where
  | ok (messages : Option (List SqsMessage))
  | error (e : String)

/-- What one iteration of the consumer.rs `loop` does: the events it emits,
the seconds it sleeps before the next receive, and whether the loop continues. -/
structure IterationResult where
  events : List Event
  sleepSeconds : Nat
  continues : Bool
deriving DecidableEq, Repr

/-- Embeds one iteration of the consumer.rs `loop` (lines 51-126): on a
successful receive, process each message of a non-empty batch, print the
liveness dot on an empty batch, and do nothing when the response carries no
message list; on a receive error, log it and sleep 5 seconds. The loop body
never breaks or returns, so every iteration continues. -/
def consumerIteration (p : String → Option Json) (d : String → Except String Unit)
    (recv : ReceiveOutcome) : IterationResult :=
  match recv with
  | ReceiveOutcome.error e => ⟨[Event.receiveErrorLog e], 5, true⟩
  | ReceiveOutcome.ok none => ⟨[], 0, true⟩
  | ReceiveOutcome.ok (some msgs) =>
    if msgs.isEmpty then ⟨[Event.idleDot], 0, true⟩
    else ⟨processBatch p d msgs, 0, true⟩

/-- The body handling of main.rs `SqsConsumer::receive_messages` mapped onto
its printed events, via the unwrap result of `unwrapBody`. -/
def mainBodyEvents (p : String → Option Json) (msg : SqsMessage) : List Event :=
  match msg.body with
  | none => []
  | some body =>
    match unwrapBody p body with
    | UnwrapResult.payload m => [Event.payloadLog m]
    | UnwrapResult.rawInner s => [Event.rawInnerLog s]
    | UnwrapResult.silent => []
    | UnwrapResult.nonEnvelope b => [Event.nonSnsLog b]

/-- One message of the main.rs consumer loop (lines 79-108): body handling
never fails, but the delete call carries a `?` behind
`.context("Failed to delete message")`, so a delete failure aborts
`receive_messages` with an error. -/
def mainProcessMessage (p : String → Option Json) (d : String → Except String Unit)
    (msg : SqsMessage) : Except String (List Event) :=
  let bodyEvents := mainBodyEvents p msg
  match msg.receiptHandle with
  | none => Except.ok bodyEvents
  | some rh =>
    match d rh with
    | Except.ok _ => Except.ok (bodyEvents ++ [Event.deleteCall rh, Event.deletedLog])
    | Except.error e => Except.error ("Failed to delete message: " ++ e)

/-- The `for msg in messages` loop of main.rs `receive_messages`: the first
failing delete aborts the whole call, skipping the remaining messages. -/
def mainProcessAll (p : String → Option Json) (d : String → Except String Unit) :
    List SqsMessage → Except String (List Event)
  | [] => Except.ok []
  | msg :: rest => do
    let evs ← mainProcessMessage p d msg
    let rest' ← mainProcessAll p d rest
    pure (evs ++ rest')

/-- Embeds main.rs `SqsConsumer::receive_messages` (lines 60-115): a receive
transport error propagates via `.context(...)?`; a missing or empty message
list prints "No messages received" and returns `Ok`; otherwise each message is
processed, with the first delete failure propagating out as an error. -/
def receiveMessagesM (p : String → Option Json) (d : String → Except String Unit)
    (recv : ReceiveOutcome) : Except String (List Event) :=
  match recv with
  | ReceiveOutcome.error e =>
    Except.error ("Failed to receive messages from SQS: " ++ e)
  | ReceiveOutcome.ok none => Except.ok [Event.noMessagesLog]
  | ReceiveOutcome.ok (some msgs) =>
    if msgs.isEmpty then Except.ok [Event.noMessagesLog]
    else mainProcessAll p d msgs

/-- The end-to-end example payload of the spec's testable-properties section. -/
def examplePayload : Message := ⟨1, "hello", "2024-01-01T00:00:00Z"⟩

/-- The JSON document encoding `examplePayload`. -/
def payloadJson : Json :=
  Json.obj [("id", Json.num 1), ("content", Json.str "hello"),
            ("timestamp", Json.str "2024-01-01T00:00:00Z")]

/-- The raw body text of that document. -/
def payloadBody : String :=
  "\x7b\"id\":1,\"content\":\"hello\",\"timestamp\":\"2024-01-01T00:00:00Z\"\x7d"

/-- A concrete JSON parse environment: the JSON reading of the one document
used below, `none` elsewhere — a fragment of a full JSON parser, consistent
with `serde_json` on these inputs. -/
def directParse : String → Option Json :=
  fun s => if s = payloadBody then some payloadJson else none

/-- A delete-call environment in which every delete fails with "boom". -/
def dFail : String → Except String Unit := fun _ => Except.error "boom"

/-- A delete-call environment in which every delete succeeds. -/
def dOk : String → Except String Unit := fun _ => Except.ok ()

/-- A bodyless message carrying only a receipt handle. -/
def msgFail : SqsMessage := ⟨none, none, some "rh1"⟩

/-- A message with a body but no receipt handle. -/
def msgNoHandle : SqsMessage := ⟨some "hello", none, none⟩

/-- An attribute set holding a `Number`-typed attribute, whose value the SDK
stores in the `string_value` field. -/
def numberAttrMap : AttrMap := [("n", ⟨"Number", some "42", none⟩)]

theorem injectorSet_eq (m : AttrMap) (k v : String) :
    injectorSet m k v = some (attrInsert m k (stringAttr v)) := rfl

theorem attrLookup_insert_self (m : AttrMap) (k : String) (v : MessageAttributeValue) :
    attrLookup (attrInsert m k v) k = some v := by
  induction m with
  | nil => simp [attrInsert, attrLookup]
  | cons hd tl ih =>
    obtain ⟨k', v'⟩ := hd
    by_cases h : k' = k
    · simp [attrInsert, h, attrLookup]
    · simp [attrInsert, h, attrLookup, ih]

theorem attrLookup_insert_ne (m : AttrMap) (k a : String) (v : MessageAttributeValue)
    (h : a ≠ k) : attrLookup (attrInsert m k v) a = attrLookup m a := by
  have hka : ¬ (k = a) := fun hh => h hh.symm
  induction m with
  | nil => simp [attrInsert, attrLookup, hka]
  | cons hd tl ih =>
    obtain ⟨k', v'⟩ := hd
    by_cases hk : k' = k
    · subst hk
      simp [attrInsert, attrLookup, hka]
    · simp [attrInsert, hk, attrLookup, ih]

theorem length_attrInsert_of_mem (m : AttrMap) (k : String)
    (v w : MessageAttributeValue) (h : attrLookup m k = some w) :
    (attrInsert m k v).length = m.length := by
  induction m with
  | nil => simp [attrLookup] at h
  | cons hd tl ih =>
    obtain ⟨k', v'⟩ := hd
    by_cases hk : k' = k
    · simp [attrInsert, hk]
    · simp [attrLookup, hk] at h
      simp [attrInsert, hk, ih h]

theorem filter_key_eq_nil_of_lookup_none (m : AttrMap) (k : String)
    (h : attrLookup m k = none) :
    m.filter (fun pr => pr.1 == k) = [] := by
  induction m with
  | nil => rfl
  | cons hd tl ih =>
    obtain ⟨k', v'⟩ := hd
    by_cases hk : k' = k
    · simp [attrLookup, hk] at h
    · have h' : attrLookup tl k = none := by simpa [attrLookup, hk] using h
      have hfalse : ((k', v').1 == k) = false := by simp [hk]
      simpa [List.filter_cons, hfalse] using ih h'

theorem wfAttrMap_insert (m : AttrMap) (k : String) (v : MessageAttributeValue)
    (h : wfAttrMap m) : wfAttrMap (attrInsert m k v) := by
  induction m with
  | nil => exact ⟨rfl, trivial⟩
  | cons hd tl ih =>
    obtain ⟨k', v'⟩ := hd
    obtain ⟨h1, h2⟩ := h
    by_cases hk : k' = k
    · subst hk
      simpa [attrInsert, wfAttrMap] using ⟨h1, h2⟩
    · have hlook : attrLookup (attrInsert tl k v) k' = none := by
        rw [attrLookup_insert_ne tl k k' v hk, h1]
      simpa [attrInsert, hk, wfAttrMap] using ⟨hlook, ih h2⟩

theorem filter_key_attrInsert (m : AttrMap) (k : String) (v : MessageAttributeValue)
    (h : wfAttrMap m) :
    (attrInsert m k v).filter (fun pr => pr.1 == k) = [(k, v)] := by
  induction m with
  | nil => simp [attrInsert, List.filter]
  | cons hd tl ih =>
    obtain ⟨k', v'⟩ := hd
    obtain ⟨h1, h2⟩ := h
    by_cases hk : k' = k
    · subst hk
      simp [attrInsert, List.filter_cons, filter_key_eq_nil_of_lookup_none tl k' h1]
    · simp [attrInsert, hk, List.filter_cons, ih h2]

/-- Claim C1: injecting a name/value pair via the Writer Carrier's `set` and
then extracting via a Reader Carrier's `get` over the same Attribute Set with
the same name returns the original value. -/
theorem c1_inject_extract_roundtrip (m : AttrMap) (k v : String) :
    ∃ m2, injectorSet m k v = some m2 ∧ extractorGet m2 k = some v := by
  refine ⟨attrInsert m k (stringAttr v), injectorSet_eq m k v, ?_⟩
  unfold extractorGet
  rw [attrLookup_insert_self]
  rfl

/-- Claim C1 at the spec's concrete example attribute. -/
theorem c1_roundtrip_witness :
    ∃ m2, injectorSet [] "traceparent" "00-aaaa-bbbb-01" = some m2 ∧
      extractorGet m2 "traceparent" = some "00-aaaa-bbbb-01" :=
  c1_inject_extract_roundtrip [] "traceparent" "00-aaaa-bbbb-01"

/-- Claim C4 counterexample: the claim states that `get` returns the string
value only when the attribute is string-typed and absent on a non-string-typed
attribute; but on an attribute declared `Number` (whose value the SDK stores
in `string_value`), `get` returns the value — the code never consults
`data_type` (sqs.rs line 39). -/
theorem c4_counterexample :
    ¬ (∀ (m : AttrMap) (k : String) (a : MessageAttributeValue),
        attrLookup m k = some a → a.dataType ≠ "String" →
        extractorGet m k = none) := by
  intro h
  have h2 := h numberAttrMap "n" ⟨"Number", some "42", none⟩ rfl (by decide)
  rw [show extractorGet numberAttrMap "n" = some "42" from rfl] at h2
  exact Option.noConfusion h2

/-- Claim C4 amended: `get` returns a string value exactly when the attribute
is present and its `string_value` field is set — regardless of the declared
data type; it is absent when the name is missing or the field is unset, and it
never errors. -/
theorem c4_get_amended (m : AttrMap) (k v : String) :
    extractorGet m k = some v ↔
      ∃ a, attrLookup m k = some a ∧ a.stringValue = some v := by
  cases h : attrLookup m k <;> simp [extractorGet, h]

/-- Claim C4 amended, at the `Number`-typed concrete attribute. -/
theorem c4_amended_witness :
    extractorGet numberAttrMap "n" = some "42" :=
  (c4_get_amended numberAttrMap "n" "42").mpr ⟨⟨"Number", some "42", none⟩, rfl, rfl⟩

/-- Claim C5: on a well-formed Attribute Set, `set(k,v1)` then `set(k,v2)`
leaves exactly one entry under `k`, holding exactly `v2` (last write wins,
never merged), and the set's size equals its size after the first `set`. -/
theorem c5_overwrite_last_write_wins (m : AttrMap) (k v1 v2 : String)
    (hwf : wfAttrMap m) :
    ∃ m1 m2, injectorSet m k v1 = some m1 ∧ injectorSet m1 k v2 = some m2 ∧
      extractorGet m2 k = some v2 ∧
      m2.length = m1.length ∧
      m2.filter (fun pr => pr.1 == k) = [(k, stringAttr v2)] := by
  refine ⟨attrInsert m k (stringAttr v1),
    attrInsert (attrInsert m k (stringAttr v1)) k (stringAttr v2),
    injectorSet_eq m k v1, injectorSet_eq _ k v2, ?_, ?_, ?_⟩
  · unfold extractorGet
    rw [attrLookup_insert_self]
    rfl
  · exact length_attrInsert_of_mem _ k (stringAttr v2) (stringAttr v1)
      (attrLookup_insert_self m k (stringAttr v1))
  · exact filter_key_attrInsert _ k (stringAttr v2)
      (wfAttrMap_insert m k (stringAttr v1) hwf)

/-- Claim C5 at the spec's concrete overwrite example. -/
theorem c5_overwrite_witness :
    ∃ m1 m2, injectorSet [] "k" "v1" = some m1 ∧ injectorSet m1 "k" "v2" = some m2 ∧
      extractorGet m2 "k" = some "v2" ∧ m2.length = m1.length ∧
      m2.filter (fun pr => pr.1 == "k") = [("k", stringAttr "v2")] :=
  c5_overwrite_last_write_wins [] "k" "v1" "v2" trivial

/-- Claim C8: every attribute written by the Writer Carrier's `set` has data
type exactly "String" and string value exactly the value passed in. -/
theorem c8_written_attribute_shape (m : AttrMap) (k v : String) :
    ∃ m2, injectorSet m k v = some m2 ∧
      ∃ a, attrLookup m2 k = some a ∧ a.dataType = "String" ∧
        a.stringValue = some v :=
  ⟨_, injectorSet_eq m k v, stringAttr v, attrLookup_insert_self m k _, rfl, rfl⟩

/-- Claim C8 at a concrete attribute. -/
theorem c8_shape_witness :
    ∃ m2, injectorSet [] "traceparent" "00-abc123-def456-01" = some m2 ∧
      ∃ a, attrLookup m2 "traceparent" = some a ∧ a.dataType = "String" ∧
        a.stringValue = some "00-abc123-def456-01" :=
  c8_written_attribute_shape [] "traceparent" "00-abc123-def456-01"

/-- Claim C9: the Writer Carrier's `set` is total — the SDK builder call with
data type "String" always returns `Ok`, so the `expect` branch in `set`
(sns.rs line 49) is unreachable and `set` never fails. -/
theorem c9_set_total (m : AttrMap) (k v : String) :
    ((mavBuilder.withDataType "String").withStringValue v).build =
      Except.ok (stringAttr v) ∧
    injectorSet m k v = some (attrInsert m k (stringAttr v)) :=
  ⟨rfl, rfl⟩

/-- Claim C9 at a concrete key/value pair. -/
theorem c9_set_total_witness :
    ((mavBuilder.withDataType "String").withStringValue "v").build =
      Except.ok (stringAttr "v") ∧
    injectorSet [] "k" "v" = some (attrInsert [] "k" (stringAttr "v")) :=
  c9_set_total [] "k" "v"

theorem processBatch_append (p : String → Option Json) (d : String → Except String Unit)
    (xs ys : List SqsMessage) :
    processBatch p d (xs ++ ys) = processBatch p d xs ++ processBatch p d ys := by
  induction xs with
  | nil => rfl
  | cons x xs ih => simp [processBatch, ih]

/-- Claim C2 counterexample: the claim's third tier says a body whose envelope
parse fails is parsed as a direct application payload; but main.rs only checks
for a string `Message` field after a successful JSON parse, so a body that is
a valid direct payload JSON (hence no `Message` field) is silently ignored —
neither decoded as a payload nor emitted as raw content. -/
theorem c2_counterexample :
    ¬ (∀ (p : String → Option Json) (body : String) (j : Json) (m : Message),
        p body = some j → (jsonGet j "Message").bind asStr = none →
        messageOfJson j = some m →
        unwrapBody p body = UnwrapResult.payload m) := by
  intro h
  have h2 := h directParse payloadBody payloadJson examplePayload rfl rfl rfl
  rw [show unwrapBody directParse payloadBody = UnwrapResult.silent from rfl] at h2
  exact UnwrapResult.noConfusion h2

/-- Claim C2 amended: the unwrapper of main.rs is a two-tier envelope decoder
with a silent gap, never an error: a body that is not valid JSON yields the
whole body as raw non-envelope content; a valid-JSON body with a string
`Message` field yields the decoded inner payload when that string parses as a
payload and otherwise the field's raw string; and a valid-JSON body without a
string `Message` field yields nothing at all — it is not attempted as a direct
payload (direct parsing exists only in the separate consumer.rs variant). -/
theorem c2_unwrap_amended (p : String → Option Json) (body : String) :
    (unwrapBody p body = UnwrapResult.nonEnvelope body ↔ p body = none) ∧
    (∀ j, p body = some j →
      ((unwrapBody p body = UnwrapResult.silent ↔
          (jsonGet j "Message").bind asStr = none) ∧
       (∀ ms, (jsonGet j "Message").bind asStr = some ms →
         ((∀ m, unwrapBody p body = UnwrapResult.payload m ↔
             (p ms).bind messageOfJson = some m) ∧
          (unwrapBody p body = UnwrapResult.rawInner ms ↔
             (p ms).bind messageOfJson = none))))) := by
  refine ⟨?_, ?_⟩
  · cases hp : p body with
    | none => simp [unwrapBody, hp]
    | some j =>
      cases hm : (jsonGet j "Message").bind asStr with
      | none => simp [unwrapBody, hp, hm]
      | some ms =>
        cases hq : (p ms).bind messageOfJson with
        | none => simp [unwrapBody, hp, hm, hq]
        | some m => simp [unwrapBody, hp, hm, hq]
  · intro j hp
    refine ⟨?_, ?_⟩
    · cases hm : (jsonGet j "Message").bind asStr with
      | none => simp [unwrapBody, hp, hm]
      | some ms =>
        cases hq : (p ms).bind messageOfJson with
        | none => simp [unwrapBody, hp, hm, hq]
        | some m => simp [unwrapBody, hp, hm, hq]
    · intro ms hm
      cases hq : (p ms).bind messageOfJson with
      | none => simp [unwrapBody, hp, hm, hq]
      | some m => simp [unwrapBody, hp, hm, hq]

/-- Claim C2 amended, at the concrete direct-payload body: the unwrapper is
silent on it. -/
theorem c2_amended_witness :
    unwrapBody directParse payloadBody = UnwrapResult.silent :=
  ((c2_unwrap_amended directParse payloadBody).2 payloadJson rfl).1.mpr rfl

/-- Claim C3 counterexample: in main.rs `receive_messages`, a delete failure
is not contained in the loop — it propagates out through
`.context("Failed to delete message")?` (and in that binary's `main`, through
a further `?` to a non-zero process exit), contradicting "only configuration
errors at startup propagate to process exit". -/
theorem c3_counterexample :
    receiveMessagesM directParse dFail (ReceiveOutcome.ok (some [msgFail])) =
      Except.error "Failed to delete message: boom" := rfl

/-- Claim C3 amended: in the tracing consumer (consumer.rs) a delete failure
is logged and non-fatal — the iteration continues, every other message of the
batch is still processed, and the loop goes on; but in the demo consumer
(main.rs) the same failure propagates out of `receive_messages` as an error
and exits the process. -/
theorem c3_delete_failure_policy (p : String → Option Json)
    (d : String → Except String Unit) (pre post : List SqsMessage)
    (msg : SqsMessage) (rh e : String)
    (h1 : msg.receiptHandle = some rh) (h2 : d rh = Except.error e) :
    (consumerIteration p d (ReceiveOutcome.ok (some (pre ++ msg :: post)))).continues = true ∧
    Event.deleteFailedLog e ∈
      (consumerIteration p d (ReceiveOutcome.ok (some (pre ++ msg :: post)))).events ∧
    (consumerIteration p d (ReceiveOutcome.ok (some (pre ++ msg :: post)))).events =
      processBatch p d pre ++ processMessage p d msg ++ processBatch p d post ∧
    mainProcessMessage p d msg = Except.error ("Failed to delete message: " ++ e) := by
  have hne : (pre ++ msg :: post).isEmpty = false := by cases pre <;> rfl
  have hev : (consumerIteration p d (ReceiveOutcome.ok (some (pre ++ msg :: post)))).events
      = processBatch p d pre ++ processMessage p d msg ++ processBatch p d post := by
    simp [consumerIteration, hne, processBatch_append, processBatch, List.append_assoc]
  have hmem : Event.deleteFailedLog e ∈ processMessage p d msg := by
    simp [processMessage, h1, h2]
  refine ⟨?_, ?_, hev, ?_⟩
  · simp [consumerIteration, hne]
  · rw [hev]
    simp [hmem]
  · simp [mainProcessMessage, h1, h2]

/-- Claim C3 amended, at a concrete failing delete. -/
theorem c3_policy_witness :
    (consumerIteration directParse dFail
      (ReceiveOutcome.ok (some ([] ++ msgFail :: [])))).continues = true ∧
    Event.deleteFailedLog "boom" ∈
      (consumerIteration directParse dFail
        (ReceiveOutcome.ok (some ([] ++ msgFail :: [])))).events ∧
    (consumerIteration directParse dFail
      (ReceiveOutcome.ok (some ([] ++ msgFail :: [])))).events =
      processBatch directParse dFail [] ++ processMessage directParse dFail msgFail ++
        processBatch directParse dFail [] ∧
    mainProcessMessage directParse dFail msgFail =
      Except.error ("Failed to delete message: " ++ "boom") :=
  c3_delete_failure_policy directParse dFail [] [] msgFail "rh1" "boom" rfl rfl

/-- Claim C6 counterexample: a delete failure in consumer.rs logs the error
but the loop does not pause — the sleep before the next receive attempt is 0
seconds, not the claimed fixed 5-second interval (only a receive failure
sleeps, consumer.rs lines 121-124). -/
theorem c6_counterexample :
    Event.deleteFailedLog "boom" ∈
      (consumerIteration directParse dFail (ReceiveOutcome.ok (some [msgFail]))).events ∧
    (consumerIteration directParse dFail
      (ReceiveOutcome.ok (some [msgFail]))).sleepSeconds = 0 := by
  exact ⟨by decide, rfl⟩

/-- Claim C6 amended: a failing receive call logs the error, pauses the loop
5 seconds before the next receive attempt, and processes no message in that
iteration; a failing delete call is only logged — every iteration whose
receive succeeded proceeds to the next receive with no pause at all. -/
theorem c6_backoff_amended (p : String → Option Json)
    (d : String → Except String Unit) (e : String)
    (msgsOpt : Option (List SqsMessage)) :
    consumerIteration p d (ReceiveOutcome.error e) =
      ⟨[Event.receiveErrorLog e], 5, true⟩ ∧
    (consumerIteration p d (ReceiveOutcome.ok msgsOpt)).sleepSeconds = 0 := by
  refine ⟨rfl, ?_⟩
  cases msgsOpt with
  | none => rfl
  | some msgs => by_cases h : msgs.isEmpty <;> simp [consumerIteration, h]

/-- Claim C6 amended, at a concrete receive error and a concrete batch with a
failing delete. -/
theorem c6_amended_witness :
    consumerIteration directParse dFail (ReceiveOutcome.error "boom") =
      ⟨[Event.receiveErrorLog "boom"], 5, true⟩ ∧
    (consumerIteration directParse dFail
      (ReceiveOutcome.ok (some [msgFail]))).sleepSeconds = 0 :=
  c6_backoff_amended directParse dFail "boom" (some [msgFail])

/-- Claim C7 counterexample: the claim says every empty-batch receive emits a
liveness indicator; but when the receive response carries no message list at
all (`messages = None`, an equally empty receive), the `if let` on
consumer.rs line 62 has no else branch, so the iteration emits nothing — no
dot is printed. -/
theorem c7_counterexample :
    consumerIteration directParse dFail (ReceiveOutcome.ok none) =
      ⟨[], 0, true⟩ ∧
    Event.idleDot ∉
      (consumerIteration directParse dFail (ReceiveOutcome.ok none)).events := by
  exact ⟨rfl, by simp [consumerIteration]⟩

/-- Claim C7 amended: an empty-batch receive advances the loop immediately —
no sleep, no context extraction, no span creation, no delete; the liveness
dot is emitted only when the response carries a present-but-empty message
list, while a response with no message list at all advances silently with no
indicator. -/
theorem c7_idle_amended (p : String → Option Json) (d : String → Except String Unit) :
    consumerIteration p d (ReceiveOutcome.ok (some [])) =
      ⟨[Event.idleDot], 0, true⟩ ∧
    consumerIteration p d (ReceiveOutcome.ok none) = ⟨[], 0, true⟩ ∧
    (∀ a, Event.extractContext a ∉
      (consumerIteration p d (ReceiveOutcome.ok (some []))).events ∧
      Event.extractContext a ∉
        (consumerIteration p d (ReceiveOutcome.ok none)).events) ∧
    Event.startSpan ∉ (consumerIteration p d (ReceiveOutcome.ok (some []))).events ∧
    Event.startSpan ∉ (consumerIteration p d (ReceiveOutcome.ok none)).events ∧
    (∀ rh, Event.deleteCall rh ∉
      (consumerIteration p d (ReceiveOutcome.ok (some []))).events ∧
      Event.deleteCall rh ∉
        (consumerIteration p d (ReceiveOutcome.ok none)).events) := by
  refine ⟨rfl, rfl, ?_, ?_, ?_, ?_⟩ <;> simp [consumerIteration]

/-- Claim C7 amended, at a concrete environment. -/
theorem c7_amended_witness :
    consumerIteration directParse dFail (ReceiveOutcome.ok (some [])) =
      ⟨[Event.idleDot], 0, true⟩ ∧
    consumerIteration directParse dFail (ReceiveOutcome.ok none) =
      ⟨[], 0, true⟩ ∧
    (∀ a, Event.extractContext a ∉
      (consumerIteration directParse dFail (ReceiveOutcome.ok (some []))).events ∧
      Event.extractContext a ∉
        (consumerIteration directParse dFail (ReceiveOutcome.ok none)).events) ∧
    Event.startSpan ∉
      (consumerIteration directParse dFail (ReceiveOutcome.ok (some []))).events ∧
    Event.startSpan ∉
      (consumerIteration directParse dFail (ReceiveOutcome.ok none)).events ∧
    (∀ rh, Event.deleteCall rh ∉
      (consumerIteration directParse dFail (ReceiveOutcome.ok (some []))).events ∧
      Event.deleteCall rh ∉
        (consumerIteration directParse dFail (ReceiveOutcome.ok none)).events) :=
  c7_idle_amended directParse dFail

/-- Claim C10: in consumer.rs, a message whose body is absent skips all
payload handling yet still issues the delete call when a receipt handle is
present; and a message without a receipt handle never triggers a delete call. -/
theorem c10_absent_body_and_handle (p : String → Option Json)
    (d : String → Except String Unit) (msg : SqsMessage) :
    (msg.body = none →
      (∀ m, Event.payloadLog m ∉ processMessage p d msg) ∧
      (∀ s, Event.rawLog s ∉ processMessage p d msg) ∧
      (∀ rh, msg.receiptHandle = some rh →
        Event.deleteCall rh ∈ processMessage p d msg)) ∧
    (msg.receiptHandle = none →
      ∀ rh, Event.deleteCall rh ∉ processMessage p d msg) := by
  constructor
  · intro hb
    refine ⟨?_, ?_, ?_⟩
    · intro m
      cases hr : msg.receiptHandle with
      | none => simp [processMessage, hb, hr]
      | some rh => cases hd2 : d rh <;> simp [processMessage, hb, hr, hd2]
    · intro s
      cases hr : msg.receiptHandle with
      | none => simp [processMessage, hb, hr]
      | some rh => cases hd2 : d rh <;> simp [processMessage, hb, hr, hd2]
    · intro rh hr
      cases hd2 : d rh <;> simp [processMessage, hb, hr, hd2]
  · intro hr rh
    cases hb : msg.body with
    | none => simp [processMessage, hb, hr]
    | some body =>
      cases hq : (p body).bind messageOfJson with
      | none => simp [processMessage, hb, hr, hq]
      | some m => simp [processMessage, hb, hr, hq]

/-- Claim C10 at two concrete messages: one bodyless with a receipt handle,
one with a body but no handle. -/
theorem c10_witness :
    Event.deleteCall "rh1" ∈ processMessage directParse dFail msgFail ∧
    ∀ rh, Event.deleteCall rh ∉ processMessage directParse dFail msgNoHandle :=
  ⟨((c10_absent_body_and_handle directParse dFail msgFail).1 rfl).2.2 "rh1" rfl,
   (c10_absent_body_and_handle directParse dFail msgNoHandle).2 rfl⟩

end SnsSqsTracing
